import Mathlib

/-!
Verification of the federated-learning coordination runtime (flower snapshot)
against its natural-language specification.

Shallow embedding conventions:
* Python dicts with significant insertion order become association lists.
* Raising checks become `Bool` predicates together with an explicit error value.
* Mutation becomes explicit state passing: an operation that mutates its
  argument in Python returns the updated value here.
* Byte blobs become `List Nat`; numeric tensors in the DP wrapper become
  `List ℝ` (idealized real semantics of the floating-point code).
-/

namespace Flwr

/-! ## Typed key→value container
Embedding of `src/py/flwr/common/record/typeddict.py` (class `TypedDict`). -/

/-- Error raised by the insertion-time checks of `TypedDict.__setitem__`
(the `check_key_fn` / `check_value_fn` callbacks raise `TypeError`). -/
inductive TypeViolation : Type
  | typeError : TypeViolation
deriving DecidableEq, Repr

/-- Embedding of `TypedDict`: the raising check functions are modelled as
boolean predicates (`true` = check passes, `false` = the callback raises),
and `_data` is an insertion-ordered association list, matching the
insertion-order semantics of a Python `dict`. -/
structure TypedDict (K V : Type) where
  checkKey : K → Bool
  checkValue : V → Bool
  data : List (K × V)

/-- Python dict assignment `d[k] = v`: an existing key keeps its position
and gets the new value; a fresh key is appended at the end. -/
def dictInsert {K V : Type} [DecidableEq K] (data : List (K × V)) (k : K) (v : V) :
    List (K × V) :=
  if data.any (fun kv => kv.1 = k) then
    data.map (fun kv => if kv.1 = k then (k, v) else kv)
  else
    data ++ [(k, v)]

/-- Embedding of `TypedDict.__setitem__`: first `check_key_fn(key)` runs, then
`check_value_fn(value)`, and only if neither raised is the pair stored.
Returns the dict after the call together with the raised error, if any;
on an error the returned dict is the unmodified input, because the raise
happens before the assignment `self._data[key] = value`. -/
def TypedDict.setitem {K V : Type} [DecidableEq K]
    (d : TypedDict K V) (k : K) (v : V) :
    TypedDict K V × Option TypeViolation :=
  if ¬ d.checkKey k then (d, some TypeViolation.typeError)
  else if ¬ d.checkValue v then (d, some TypeViolation.typeError)
  else ({ d with data := dictInsert d.data k v }, none)

/-! ## ParametersRecord ↔ Parameters conversion
Embedding of `src/py/flwr/common/recordset_utils.py`
(`parametersrecord_to_parameters`, `parameters_to_parametersrecord`). -/

/-- Embedding of `flwr.common.parametersrecord.Array`: an opaque byte blob
(`data`, bytes as naturals) plus dtype tag, serialization-format tag
(`stype`) and shape. -/
structure NamedArray where
  data : List Nat
  dtype : String
  stype : String
  shape : List Int
deriving DecidableEq, Repr

/-- Embedding of `ParametersRecord`: an insertion-ordered mapping from string
key to `NamedArray` (Python `OrderedDict` / `dict`). -/
structure ParametersRecord where
  data : List (String × NamedArray)
deriving DecidableEq, Repr

/-- Embedding of the legacy `Parameters`: a list of byte blobs plus a common
tensor-type tag. -/
structure Parameters where
  tensors : List (List Nat)
  tensor_type : String
deriving DecidableEq, Repr

/-- Embedding of `parametersrecord_to_parameters`. The source initializes
`Parameters(tensors=[], tensor_type="")`, then for every key (snapshot of
the record's key list, in insertion order) appends `record.data[key].data`
to `parameters.tensors` and, when `keep_input` is false, deletes the entry.
The mutated record after the call is the second component. Note the source
never assigns `tensor_type` again, so it stays `""`. -/
def parametersrecord_to_parameters (record : ParametersRecord)
    (keep_input : Bool) : Parameters × ParametersRecord :=
  let parameters : Parameters :=
    { tensors := record.data.map (fun kv => kv.2.data), tensor_type := "" }
  (parameters, if keep_input then record else { data := [] })

/-- Embedding of `parameters_to_parametersrecord`. For `idx` in
`range(len(parameters.tensors))` the source stores
`Array(data=tensor_idx, dtype="", stype=parameters.tensor_type, shape=[])`
under the key `str(idx)`; with `keep_input = false` the tensors are drained
from the front (`pop(0)`), which consumes them in the original order.
The mutated `Parameters` after the call is the second component. -/
def parameters_to_parametersrecord (parameters : Parameters)
    (keep_input : Bool) : ParametersRecord × Parameters :=
  let tensor_type := parameters.tensor_type
  let entries := parameters.tensors.enum.map
    (fun it => (toString it.1,
      NamedArray.mk it.2 "" tensor_type []))
  (⟨entries⟩,
    if keep_input then parameters
    else { parameters with tensors := [] })

/-! ## Dirichlet partitioner
Embedding of `datasets/flwr_datasets/partitioner/dirichlet_partitioner.py`
(class `DirichletPartitioner`). The dataset is represented by the column the
partitioner reads: `targets : List Nat`, the label of each row. Draws of
`np.random.dirichlet(alpha)` from NumPy's global (unseeded) generator are
modelled as a stream `rng : Nat → List ℚ` together with the global position
of the next draw; each sampling call consumes one stream element. Floats
are idealized as rationals. -/

/-- Embedding of the `DirichletPartitioner` attributes set in `__init__`
plus the utility attributes (`_node_id_to_indices`, keyed by partition id
`0..num_partitions-1`, and `_node_id_to_indices_determined`). -/
structure DirichletPartitioner where
  num_partitions : Nat
  alpha : List ℚ
  partition_by : String
  min_partition_size : Nat
  self_balancing : Bool
  shuffle : Bool
  seed : Nat
  node_id_to_indices : List (List Nat)
  node_id_to_indices_determined : Bool
deriving DecidableEq, Repr

/-- Distinct values of `l` not yet in `seen`, keeping the order of first
appearance. -/
def uniqueClassesAux : List Nat → List Nat → List Nat
  | [], _ => []
  | a :: rest, seen =>
    if a ∈ seen then uniqueClassesAux rest seen
    else a :: uniqueClassesAux rest (a :: seen)

/-- Order-of-first-appearance distinct values, the behavior of
`dataset.unique(column)`. -/
def uniqueClasses (l : List Nat) : List Nat :=
  uniqueClassesAux l []

/-- Partial sums of a list, matching `np.cumsum`. -/
def cumsum (l : List ℚ) : List ℚ :=
  (l.scanl (· + ·) 0).tail

/-- Sections `arr[prev:c₀]`, `arr[c₀:c₁]`, …, `arr[c_last:]` of `arr`,
given the previous cut position `prev`. -/
def splitAtPositionsAux (arr : List Nat) (prev : Nat) :
    List Nat → List (List Nat)
  | [] => [arr.drop prev]
  | c :: rest => ((arr.drop prev).take (c - prev)) ::
      splitAtPositionsAux arr c rest

/-- Splitting a list at ascending cut positions, matching
`np.split(arr, positions)`: sections `arr[0:c₀]`, `arr[c₀:c₁]`, …,
`arr[c_last:]`. -/
def splitAtPositions (arr : List Nat) (cuts : List Nat) : List (List Nat) :=
  splitAtPositionsAux arr 0 cuts

/-- Row indices whose label equals `k`, in increasing order, matching
`np.nonzero(targets == k)[0]`. -/
def classIndices (targets : List Nat) (k : Nat) : List Nat :=
  (targets.enum.filter (fun it => it.2 = k)).map (fun it => it.1)

/-- Body of the per-class iteration of the sampling loop: given the current
assignment `acc` (one index list per partition id), the indices of class
`k` and the Dirichlet proportions drawn for this class, zero out the
proportion of every partition already above `avg` and renormalize (when
`selfBal`; the renormalizing sum is the explicit sum the spec prescribes in
place of the source's non-executable `.values().sum()`, see spec §9 O3),
compute the cumulative split positions `floor(cumsum(props) · |idxs|)`
without the final one, split the class indices there, and extend every
partition's list with its section. -/
def classStep (P : Nat) (selfBal : Bool) (avg : ℚ)
    (acc : List (List Nat)) (idxs : List Nat) (props : List ℚ) :
    List (List Nat) :=
  let props' :=
    if selfBal then
      let zeroed := (List.range P).map (fun nid =>
        if ((acc.getD nid []).length : ℚ) > avg then 0 else props.getD nid 0)
      let sumProportions := zeroed.sum
      zeroed.map (fun p => p / sumProportions)
    else props
  let cumNumbers := (cumsum props').map (fun q => q * (idxs.length : ℚ))
  let cuts := (cumNumbers.map (fun q => (Int.floor q).toNat)).dropLast
  let splits := splitAtPositions idxs cuts
  (acc.zip splits).map (fun s => s.1 ++ s.2)

/-- One attempt of the `while True` sampling loop: one Dirichlet draw per
unique class (consumed from the global stream starting at `pos`), folded
through `classStep` starting from empty partitions. Returns the assignment
and the advanced stream position. -/
def sampleAttempt (P : Nat) (selfBal : Bool) (avg : ℚ)
    (classIdxs : List (List Nat)) (rng : Nat → List ℚ) (pos : Nat) :
    List (List Nat) × Nat :=
  let draws := (List.range classIdxs.length).map (fun j => rng (pos + j))
  let asg := (classIdxs.zip draws).foldl
    (fun acc cd => classStep P selfBal avg acc cd.1 cd.2)
    ((List.range P).map (fun _ => []))
  (asg, pos + classIdxs.length)

/-- Minimum over the partition sizes, `min(len(indices) for indices ...)`. -/
def minPartitionLen : List (List Nat) → Nat
  | [] => 0
  | l :: rest => rest.foldl (fun m x => min m x.length) l.length

/-- The `while True` loop of `_determine_node_id_to_indices_if_needed`:
repeat `sampleAttempt` until every partition has at least `minSize`
samples. The source may loop forever; the embedding is fuel-indexed and
returns `none` when the fuel runs out before the condition holds. -/
def sampleLoop (fuel P : Nat) (selfBal : Bool) (avg : ℚ) (minSize : Nat)
    (classIdxs : List (List Nat)) (rng : Nat → List ℚ) (pos : Nat) :
    Option (List (List Nat) × Nat) :=
  match fuel with
  | 0 => none
  | fuel + 1 =>
    let r := sampleAttempt P selfBal avg classIdxs rng pos
    if minPartitionLen r.1 ≥ minSize then some r
    else sampleLoop fuel P selfBal avg minSize classIdxs rng r.2

/-- Embedding of `_determine_node_id_to_indices_if_needed`. The source's
guard is `if not self._node_id_to_indices_determined: pass` — a no-op whose
body does nothing — so control always falls through and the whole
assignment is recomputed on every call, consuming fresh draws from the
global generator. The final "shuffle" loop of the source is the
self-assignment `node_id_to_indices[node_id] = node_id_to_indices[node_id]`
and is therefore the identity. The stored seed is never read. Returns the
partitioner with the freshly computed assignment and the determined flag
set, together with the advanced global stream position. -/
def determine_node_id_to_indices_if_needed (p : DirichletPartitioner)
    (targets : List Nat) (rng : Nat → List ℚ) (pos : Nat) (fuel : Nat) :
    Option (DirichletPartitioner × Nat) :=
  let uniq := uniqueClasses targets
  let avg : ℚ := (targets.length : ℚ) / (p.num_partitions : ℚ)
  let classIdxs := uniq.map (classIndices targets)
  (sampleLoop fuel p.num_partitions p.self_balancing avg
      p.min_partition_size classIdxs rng pos).map
    (fun r =>
      ({ p with node_id_to_indices := r.1,
                node_id_to_indices_determined := true }, r.2))

/-- Embedding of `DirichletPartitioner.load_partition`: run the
determination step, then `dataset.select(self._node_id_to_indices[node_id])`,
represented by the selected index list itself. Returns the selected
indices, the partitioner state after the call and the advanced global
stream position. -/
def load_partition (p : DirichletPartitioner) (targets : List Nat)
    (rng : Nat → List ℚ) (pos : Nat) (fuel : Nat) (node_id : Nat) :
    Option (List Nat × DirichletPartitioner × Nat) :=
  (determine_node_id_to_indices_if_needed p targets rng pos fuel).map
    (fun r => (r.1.node_id_to_indices.getD node_id [], r.1, r.2))

/-! ## Virtual Client Engine
Embedding of `src/py/flwr/server/superlink/fleet/vce/vce_api.py`
(`taskins_to_message` and the `worker` coroutine). The serialized payload of
a task is kept abstract (`ProtoRecordSet`); claims about the VCE concern
the metadata envelope and the worker's control flow, not the payload. -/

/-- Abstract stand-in for the protobuf-encoded `RecordSet` payload carried
by a task. -/
structure ProtoRecordSet where
  blob : Nat
deriving DecidableEq, Repr

/-- In-memory `RecordSet` payload of a `Message`. -/
structure RecordSet where
  blob : Nat
deriving DecidableEq, Repr

/-- Modelled from the spec: `recordset_from_proto` (wire-level decoding,
declared out of scope in §1 and §6) decodes the persisted payload into the
in-memory `RecordSet`; it is content-preserving, so it is the evident
repackaging of the abstract blob. -/
def recordset_from_proto (proto : ProtoRecordSet) : RecordSet :=
  ⟨proto.blob⟩

/-- Embedding of `Metadata` with the fields set by `taskins_to_message`. -/
structure Metadata where
  run_id : Nat
  message_id : String
  group_id : String
  node_id : Nat
  ttl : String
  message_type : String
deriving DecidableEq, Repr

/-- Embedding of `Message`: a `RecordSet` payload plus `Metadata`. -/
structure Message where
  content : RecordSet
  metadata : Metadata
deriving DecidableEq, Repr

/-- Embedding of the `Task` submessage of a `TaskIns`: the fields the VCE
reads (`consumer.node_id`, `ttl`, `task_type`, `recordset`). -/
structure Task where
  consumer_node_id : Nat
  ttl : String
  task_type : String
  recordset : ProtoRecordSet
deriving DecidableEq, Repr

/-- Embedding of `TaskIns` envelope fields read by the VCE. -/
structure TaskIns where
  task_id : String
  run_id : Nat
  group_id : String
  task : Task
deriving DecidableEq, Repr

/-- Embedding of `taskins_to_message`: decode the payload, then populate
`Metadata` with `run_id`, `message_id := task_id`, `group_id`,
`node_id := datapartition_id` (the partition index argument, not the
consumer node id), `ttl` and `message_type := task_type`. -/
def taskins_to_message (taskins : TaskIns) (datapartition_id : Nat) :
    Message :=
  { content := recordset_from_proto taskins.task.recordset,
    metadata :=
      { run_id := taskins.run_id,
        message_id := taskins.task_id,
        group_id := taskins.group_id,
        node_id := datapartition_id,
        ttl := taskins.task.ttl,
        message_type := taskins.task.task_type } }

/-- The node→partition mapping built by `_register_nodes`, as an
association list from node id to partition index. -/
abbrev NodeToPartitionMapping : Type := List (Nat × Nat)

/-- Lookup in the node→partition mapping; `none` models the `KeyError` of
`nodes_mapping[node_id]` on a missing key. -/
def mappingLookup (m : NodeToPartitionMapping) (node_id : Nat) : Option Nat :=
  (List.lookup node_id m)

/-- The message the `worker` builds for a dequeued `TaskIns`:
`taskins_to_message(task_ins, datapartition_id=nodes_mapping[node_id])`
where `node_id = task_ins.task.consumer.node_id`. -/
def workerMessage (nodes_mapping : NodeToPartitionMapping)
    (task_ins : TaskIns) : Option Message :=
  (mappingLookup nodes_mapping task_ins.task.consumer_node_id).map
    (taskins_to_message task_ins)

/-- A stored task result; for the worker-loop claims only the id of the
`TaskIns` it satisfies matters. -/
structure TaskRes where
  ins_task_id : String
  producer_node_id : Nat
deriving DecidableEq, Repr

/-- Embedding of the `worker` loop's control flow. Executing one task
(actor submission, context handling, conversion) is abstracted as
`exec : TaskIns → Except String TaskRes`; an `Except.error` is any
exception raised inside the `try` body. Processing a finite prefix of the
queue: on success the produced `TaskRes` is appended to the store and the
loop continues with the next task; on an exception the source's handler is
`log(ERROR, ...)` followed by `break`, so nothing is stored for the failed
task and the loop terminates. Returns the stored results and whether the
worker exited through the exception handler. -/
def workerLoop (exec : TaskIns → Except String TaskRes) :
    List TaskIns → List TaskRes → List TaskRes × Bool
  | [], stored => (stored, false)
  | t :: rest, stored =>
    match exec t with
    | Except.ok res => workerLoop exec rest (stored ++ [res])
    | Except.error _ => (stored, true)

/-! ## DP fixed-clipping strategy wrapper
Embedding of `src/py/flwr/server/strategy/dp_strategy_wrapper_fixed_clipping.py`
(class `DPStrategyWrapperServerSideFixedClipping.aggregate_fit` and its
helpers). Tensors are idealized as `List ℝ` per layer; `NDArrays` is the
list of layers. The helpers imported from
`flwr.common.differential_privacy` are not part of the sources and are
modelled from the spec (§4.9). Gaussian sampling is modelled by passing
the standard-normal draws explicitly as a `noise` argument. -/

namespace DP

/-- A model update / model as a list of layers, each a flat list of real
entries (`NDArrays`). -/
abbrev NDArrays : Type := List (List ℝ)

/-- The legacy `Parameters` as seen by the DP wrapper. The byte-level
serialization of each layer (`ndarrays_to_parameters`) is out of scope, so
a `Parameters` value carries the numeric content itself. -/
structure Parameters where
  tensors : NDArrays

/-- Modelled from the spec: `parameters_to_ndarrays` deserializes each blob
back into its tensor; with serialization abstracted it returns the
carried content. -/
def parameters_to_ndarrays (p : Parameters) : NDArrays :=
  p.tensors

/-- Modelled from the spec: `ndarrays_to_parameters` serializes a list of
tensors into a `Parameters` value. -/
def ndarrays_to_parameters (x : NDArrays) : Parameters :=
  ⟨x⟩

/-- Elementwise `np.subtract` on one layer. -/
def tensorSub (a b : List ℝ) : List ℝ :=
  List.zipWith (fun x y => x - y) a b

/-- Elementwise `np.add` on one layer. -/
def tensorAdd (a b : List ℝ) : List ℝ :=
  List.zipWith (fun x y => x + y) a b

/-- Sum of squared entries over all layers, so that the flat L2 norm of an
update is `Real.sqrt (sumSq u)`. -/
def sumSq (u : NDArrays) : ℝ :=
  (u.map (fun layer => (layer.map (fun x => x ^ 2)).sum)).sum

/-- Flat L2 norm `‖u‖₂` of an update, over all layers. -/
noncomputable def norm2 (u : NDArrays) : ℝ :=
  Real.sqrt (sumSq u)

/-- Modelled from the spec: `clip_inputs` clips a model update by L2 norm
to `clipping_norm` with scaling factor `min(1, C/‖Δ‖₂)`; per spec §9 O4
it acts in place on the list element, so the wrapper's clipping loop
replaces each update by this value. -/
noncomputable def clip_inputs (u : NDArrays) (clipping_norm : ℝ) : NDArrays :=
  let scale := min 1 (clipping_norm / norm2 u)
  u.map (fun layer => layer.map (fun x => x * scale))

/-- Modelled from the spec: `compute_stdv` returns
`noise_multiplier · clipping_norm / num_sampled_clients`. -/
noncomputable def compute_stdv (noise_multiplier clipping_norm : ℝ)
    (num_sampled_clients : ℕ) : ℝ :=
  noise_multiplier * clipping_norm / (num_sampled_clients : ℝ)

/-- Modelled from the spec: `add_noise_to_params` adds isotropic Gaussian
noise with the given standard deviation to each entry of the aggregated
parameters; the standard-normal draws are passed explicitly as `noise`,
so the update adds `stdv · noiseᵢ` to entry `i`. -/
noncomputable def add_noise_to_params (p : Parameters) (stdv : ℝ)
    (noise : NDArrays) : Parameters :=
  ndarrays_to_parameters
    (List.zipWith (fun layer nlayer =>
        List.zipWith (fun x n => x + stdv * n) layer nlayer)
      (parameters_to_ndarrays p) noise)

/-- A client failure as received in the `failures` list; its content is
never inspected by the wrapper (only `if failures:`), so it is abstract. -/
abbrev Failure : Type := Nat

/-- Client proxy identity; never inspected by the wrapper. -/
abbrev ClientProxy : Type := Nat

/-- The slice of `FitRes` the wrapper reads and writes. -/
structure FitRes where
  parameters : Parameters
  num_examples : ℕ

/-- Round metrics dictionary returned by `aggregate_fit` (`{}` = `[]`). -/
abbrev Metrics : Type := List (String × ℝ)

/-- The constructor-validated attributes of
`DPStrategyWrapperServerSideFixedClipping` plus `current_round_params`
(set by `configure_fit` from the round's global parameters). -/
structure DPWrapperState where
  noise_multiplier : ℝ
  clipping_norm : ℝ
  num_sampled_clients : ℕ
  current_round_params : NDArrays

/-- Embedding of `_compute_model_updates`: for every client,
`[np.subtract(x, y) for (x, y) in zip(client_param, current_round_params)]`. -/
def compute_model_updates (current : NDArrays) (all_clients_params : List NDArrays) :
    List NDArrays :=
  all_clients_params.map (fun client_param =>
    List.zipWith tensorSub client_param current)

/-- Embedding of `_update_clients_params`: for `i` in
`range(len(current_round_params))` the source overwrites
`client_param[i] = current_round_params[i] + client_update[i]`; positions
of `client_param` beyond `len(current_round_params)` are left untouched. -/
def update_clients_params (current client_param client_update : NDArrays) :
    NDArrays :=
  (List.range current.length).map (fun i =>
    tensorAdd (current.getD i []) (client_update.getD i []))
  ++ client_param.drop current.length

/-- Lines 130–148 of `aggregate_fit`: decode every client's parameters,
compute the per-client updates against `current_round_params`, clip each
update (in place, spec §9 O4), rebuild `current + Δ` per client, and
overwrite each `FitRes.parameters` in `results` with the re-encoded
sanitized parameters. Returns the mutated `results` list. -/
noncomputable def sanitize_results (s : DPWrapperState)
    (results : List (ClientProxy × FitRes)) : List (ClientProxy × FitRes) :=
  let clients_params := results.map (fun r => parameters_to_ndarrays r.2.parameters)
  let all_clients_updates := compute_model_updates s.current_round_params clients_params
  let clipped_updates := all_clients_updates.map (fun u => clip_inputs u s.clipping_norm)
  let new_params := (clients_params.zip clipped_updates).map
    (fun cu => update_clients_params s.current_round_params cu.1 cu.2)
  (results.zip new_params).map
    (fun rp => (rp.1.1, { rp.1.2 with parameters := ndarrays_to_parameters rp.2 }))

/-- Embedding of `DPStrategyWrapperServerSideFixedClipping.aggregate_fit`.
The inner strategy's `aggregate_fit` is the function argument `inner`.
When `failures` is non-empty the source returns `(None, {})` at once,
leaving `results` untouched. Otherwise it sanitizes the results in place,
delegates to the inner strategy on the mutated list, and, when the inner
aggregation yields parameters, adds Gaussian noise with standard deviation
`compute_stdv noise_multiplier clipping_norm num_sampled_clients` to them.
Returns the round result together with the `results` list as it stands
after the call (modelling the in-place mutation). -/
noncomputable def aggregate_fit (s : DPWrapperState)
    (inner : ℕ → List (ClientProxy × FitRes) → List Failure →
      Option Parameters × Metrics)
    (server_round : ℕ) (results : List (ClientProxy × FitRes))
    (failures : List Failure) (noise : NDArrays) :
    (Option Parameters × Metrics) × List (ClientProxy × FitRes) :=
  if failures.isEmpty = false then ((none, []), results)
  else
    let results' := sanitize_results s results
    let inner_out := inner server_round results' failures
    let aggregated :=
      match inner_out.1 with
      | some p => some (add_noise_to_params p
          (compute_stdv s.noise_multiplier s.clipping_norm
            s.num_sampled_clients) noise)
      | none => none
    ((aggregated, inner_out.2), results')

/-- Shape of an `NDArrays` value: the length of each layer. Two values with
equal `ndShape` are the elementwise-compatible operands the numpy code
assumes. -/
def ndShape (x : NDArrays) : List Nat :=
  x.map List.length

end DP

/-! ## Concrete instances used by counterexamples and witnesses -/

/-- DP wrapper attributes with `noise_multiplier = 0`, `clipping_norm = 1`,
one sampled client and current round parameters `[[0]]`. -/
noncomputable def dpSampleState : DP.DPWrapperState :=
  { noise_multiplier := 0, clipping_norm := 1, num_sampled_clients := 1,
    current_round_params := [[0]] }

/-- DP wrapper attributes with `noise_multiplier = 0`,
`clipping_norm = 1/2`, one sampled client and current round parameters
`[[0]]`. -/
noncomputable def dpWitnessState : DP.DPWrapperState :=
  { noise_multiplier := 0, clipping_norm := 1/2, num_sampled_clients := 1,
    current_round_params := [[0]] }

/-- One client result whose returned model is `[[1]]`. -/
noncomputable def dpWitnessResults : List (DP.ClientProxy × DP.FitRes) :=
  [(0, { parameters := ⟨[[1]]⟩, num_examples := 1 })]

/-- An inner strategy whose aggregation always yields the model `[[5]]`. -/
noncomputable def dpInnerFive :
    ℕ → List (DP.ClientProxy × DP.FitRes) → List DP.Failure →
      Option DP.Parameters × DP.Metrics :=
  fun _ _ _ => (some ⟨[[5]]⟩, [])

/-- An inner strategy whose aggregation yields no parameters. -/
noncomputable def dpInnerNone :
    ℕ → List (DP.ClientProxy × DP.FitRes) → List DP.Failure →
      Option DP.Parameters × DP.Metrics :=
  fun _ _ _ => (none, [])

/-- A typed record over naturals whose value check accepts only values
below 10 (stand-in for a record's allowed type set). -/
def sampleDict : TypedDict Nat Nat :=
  { checkKey := fun _ => true,
    checkValue := fun v => decide (v < 10),
    data := [(1, 2)] }

/-- A one-entry `ParametersRecord` whose array carries full metadata. -/
def sampleRecord : ParametersRecord :=
  ⟨[("w", ⟨[1, 2], "f32", "np", [2]⟩)]⟩

/-- A four-row single-class dataset column. -/
def targets4 : List Nat := [0, 0, 0, 0]

/-- A `DirichletPartitioner` as constructed with `num_partitions = 2`,
`alpha = 0.5`, `min_partition_size = 0`, `self_balancing = False`,
`shuffle = True`, `seed = 42`, before any `load_partition` call. -/
def samplePartitioner : DirichletPartitioner :=
  { num_partitions := 2, alpha := [1/2, 1/2], partition_by := "labels",
    min_partition_size := 0, self_balancing := false, shuffle := true,
    seed := 42, node_id_to_indices := [], node_id_to_indices_determined := false }

/-- The `samplePartitioner` state after its first `load_partition` call
under `rngTwoDraws` starting at position 0. -/
def samplePartitionerAfter : DirichletPartitioner :=
  { samplePartitioner with
      node_id_to_indices := [[0, 1], [2, 3]],
      node_id_to_indices_determined := true }

/-- Global-generator stream whose first Dirichlet draw is `[1/2, 1/2]` and
whose later draws are `[1/4, 3/4]`. -/
def rngTwoDraws : Nat → List ℚ :=
  fun n => if n = 0 then [1/2, 1/2] else [1/4, 3/4]

/-- Global-generator stream drawing `[1/2, 1/2]` forever (one process run). -/
def rngHalf : Nat → List ℚ := fun _ => [1/2, 1/2]

/-- Global-generator stream drawing `[1/4, 3/4]` forever (another run with
a differently initialized unseeded global generator). -/
def rngQuarter : Nat → List ℚ := fun _ => [1/4, 3/4]

/-- A task whose execution raises inside the worker's `try` body, and a
task that succeeds, for exercising the worker loop. -/
def execSample : TaskIns → Except String TaskRes :=
  fun t =>
    if t.task_id = "t1" then Except.error "actor execution raised"
    else Except.ok ⟨t.task_id, t.task.consumer_node_id⟩

/-- Task instruction `t1` for consumer node 7. -/
def taskIns1 : TaskIns :=
  ⟨"t1", 11, "round-1", ⟨7, "", "fit", ⟨100⟩⟩⟩

/-- Task instruction `t2` for the same consumer node 7. -/
def taskIns2 : TaskIns :=
  ⟨"t2", 11, "round-1", ⟨7, "", "fit", ⟨101⟩⟩⟩

/-- A node→partition mapping sending node id 7 to partition index 0. -/
def sampleMapping : NodeToPartitionMapping := [(7, 0)]

/-! ## Claim theorems -/

/-- C8: if the key predicate rejects `k` or the value predicate rejects
`v`, then `R[k] = v` fails with the type-violation error and the record's
contents are unchanged — `__setitem__` runs both checks before the
assignment, so a raise leaves `_data` untouched. -/
theorem setitem_rejected_leaves_record_unchanged {K V : Type} [DecidableEq K]
    (d : TypedDict K V) (k : K) (v : V)
    (h : d.checkKey k = false ∨ d.checkValue v = false) :
    d.setitem k v = (d, some TypeViolation.typeError) := by
  rcases h with h | h
  · simp [TypedDict.setitem, h]
  · cases hk : d.checkKey k
    · simp [TypedDict.setitem, hk]
    · simp [TypedDict.setitem, hk, h]

/-- Witness for C8: inserting the out-of-range value 99 into `sampleDict`
is rejected and leaves the record unchanged. -/
theorem setitem_rejected_witness :
    (sampleDict.checkKey 5 = false ∨ sampleDict.checkValue 99 = false) ∧
      sampleDict.setitem 5 99 = (sampleDict, some TypeViolation.typeError) :=
  ⟨Or.inr (by decide),
    setitem_rejected_leaves_record_unchanged sampleDict 5 99 (Or.inr (by decide))⟩

/-- C9 counterexample: on `sampleRecord`, whose first (and only) array has
serialization-format tag `"np"`, `parametersrecord_to_parameters` returns
`tensor_type = ""`, not the first array's stype — the source initializes
`tensor_type=""` and never assigns it. -/
theorem tensor_type_not_copied_counterexample :
    (parametersrecord_to_parameters sampleRecord false).1.tensor_type ≠
      (sampleRecord.data.getD 0 ("", ⟨[], "", "", []⟩)).2.stype := by
  decide

/-- C9 amended: for every record (and either `keep_input` flag) the
`tensor_type` of the resulting `Parameters` is the empty string. -/
theorem tensor_type_always_empty (record : ParametersRecord)
    (keep_input : Bool) :
    (parametersrecord_to_parameters record keep_input).1.tensor_type = "" :=
  rfl

/-- C5 counterexample: the round trip record → parameters → record does not
lose only dtype and shape: on `sampleRecord` the serialization-format tag
`stype` changes from `"np"` to `""` as well, because the intermediate
`Parameters` carries `tensor_type = ""`. -/
theorem roundtrip_loses_stype_counterexample :
    ((parameters_to_parametersrecord
        (parametersrecord_to_parameters sampleRecord false).1 false).1.data.map
      (fun kv => kv.2.stype)) ≠
      sampleRecord.data.map (fun kv => kv.2.stype) := by
  decide

/-- C5 amended: for every `ParametersRecord`, converting to `Parameters`
and back yields a record whose values, in insertion order, have
byte-identical data blobs to the original values; the keys are replaced by
the stringified indices `"0"`, `"1"`, …, and the dtype, shape and stype
metadata are all reset to empty values. -/
theorem parameters_roundtrip_preserves_blobs (record : ParametersRecord) :
    ((parameters_to_parametersrecord
        (parametersrecord_to_parameters record false).1 false).1.data.map
      (fun kv => kv.2.data)) = record.data.map (fun kv => kv.2.data) ∧
    ((parameters_to_parametersrecord
        (parametersrecord_to_parameters record false).1 false).1.data.map
      (fun kv => kv.1)) =
      (List.range record.data.length).map toString ∧
    ∀ kv ∈ (parameters_to_parametersrecord
        (parametersrecord_to_parameters record false).1 false).1.data,
      kv.2.dtype = "" ∧ kv.2.shape = ([] : List Int) ∧ kv.2.stype = "" := by
  refine ⟨?_, ?_, ?_⟩
  · simp [parameters_to_parametersrecord, parametersrecord_to_parameters,
      List.map_map, Function.comp_def, List.enum_map_snd]
  · simp only [parameters_to_parametersrecord, parametersrecord_to_parameters,
      List.map_map, Function.comp_def]
    calc ((record.data.map (fun kv => kv.2.data)).enum.map
            (fun x => toString x.1))
        = (((record.data.map (fun kv => kv.2.data)).enum.map Prod.fst).map
            toString) := by rw [List.map_map]; rfl
      _ = (List.range record.data.length).map toString := by
            rw [List.enum_map_fst, List.length_map]
  · intro kv hkv
    simp [parameters_to_parametersrecord, parametersrecord_to_parameters,
      List.mem_map] at hkv
    obtain ⟨a, w, -, rfl⟩ := hkv
    exact ⟨rfl, rfl, rfl⟩

/-- C3: evaluation of the worker loop at a failing task. Executing
`[taskIns1, taskIns2]` where `taskIns1` raises shows the source behavior:
the exception is caught and the handler executes `break`, so the worker
terminates through the handler, no synthesized failure `TaskRes` is stored
for `taskIns1`, and the subsequent `taskIns2` is never processed — whereas
`taskIns2` alone completes normally. This contradicts the claim (and the
source's own TODO at the handler) that a failure result is stored and the
worker continues. -/
theorem worker_breaks_on_exception :
    workerLoop execSample [taskIns1, taskIns2] [] = ([], true) ∧
      workerLoop execSample [taskIns2] [] =
        ([⟨"t2", 7⟩], false) := by
  constructor <;> rfl

/-- C2: evaluation of the partitioner at a concrete dataset showing that
the node→indices assignment is not computed exactly once. On the four-row
single-class dataset with two partitions, the first `load_partition` call
materializes `[[0,1],[2,3]]` (from the global draw `[1/2,1/2]`) and sets
the determined flag; a second call on the resulting state recomputes the
assignment from the next global draw `[1/4,3/4]` and overwrites it with
`[[0],[1,2,3]]` — the guard `if not self._node_id_to_indices_determined:
pass` never short-circuits, contradicting the lazy-once/immutable claim
and the source's own comment that only the first call creates the
assignment. -/
theorem load_partition_recomputes_assignment :
    load_partition samplePartitioner targets4 rngTwoDraws 0 1 0 =
      some ([0, 1], samplePartitionerAfter, 1) ∧
    samplePartitionerAfter.node_id_to_indices_determined = true ∧
    load_partition samplePartitionerAfter targets4 rngTwoDraws 1 1 0 =
      some ([0],
        { samplePartitionerAfter with node_id_to_indices := [[0], [1, 2, 3]] },
        2) ∧
    ([[0], [1, 2, 3]] : List (List Nat)) ≠
      samplePartitionerAfter.node_id_to_indices := by
  refine ⟨?_, rfl, ?_, by decide⟩
  · norm_num [load_partition, determine_node_id_to_indices_if_needed,
      sampleLoop, sampleAttempt, classStep, cumsum, splitAtPositions,
      splitAtPositionsAux, uniqueClasses, uniqueClassesAux, classIndices,
      minPartitionLen, samplePartitioner, samplePartitionerAfter, targets4,
      rngTwoDraws, List.range_succ, List.enum, List.enumFrom, List.scanl,
      List.filter, List.foldl]
    decide
  · norm_num [load_partition, determine_node_id_to_indices_if_needed,
      sampleLoop, sampleAttempt, classStep, cumsum, splitAtPositions,
      splitAtPositionsAux, uniqueClasses, uniqueClassesAux, classIndices,
      minPartitionLen, samplePartitioner, samplePartitionerAfter, targets4,
      rngTwoDraws, List.range_succ, List.enum, List.enumFrom, List.scanl,
      List.filter, List.foldl]

/-- C6: the sampled assignment never depends on the stored seed — the
source stores `self._seed` but never seeds or uses any generator with it —
while it does depend on the state of NumPy's global generator: two
partitioners constructed with identical arguments (including the seed)
produce different assignments under two different global streams, so
equal construction arguments do not make `load_partition` reproducible. -/
theorem load_partition_ignores_seed :
    (∀ s₁ s₂ : Nat,
      (load_partition { samplePartitioner with seed := s₁ }
          targets4 rngHalf 0 1 0).map
          (fun r => r.2.1.node_id_to_indices) =
        (load_partition { samplePartitioner with seed := s₂ }
            targets4 rngHalf 0 1 0).map
          (fun r => r.2.1.node_id_to_indices)) ∧
    (load_partition samplePartitioner targets4 rngHalf 0 1 0).map
        (fun r => r.2.1.node_id_to_indices) ≠
      (load_partition samplePartitioner targets4 rngQuarter 0 1 0).map
        (fun r => r.2.1.node_id_to_indices) := by
  constructor
  · intro s₁ s₂
    simp [load_partition, determine_node_id_to_indices_if_needed,
      Option.map_map, Function.comp_def]
  · norm_num [load_partition, determine_node_id_to_indices_if_needed,
      sampleLoop, sampleAttempt, classStep, cumsum, splitAtPositions,
      splitAtPositionsAux, uniqueClasses, uniqueClassesAux, classIndices,
      minPartitionLen, samplePartitioner, targets4, rngHalf, rngQuarter,
      List.range_succ, List.enum, List.enumFrom, List.scanl,
      List.filter, List.foldl]
    decide

/-- C7: for every `TaskIns` whose consumer node is in the node→partition
mapping, the worker's message carries the consumer's partition index in
`Metadata.node_id`, while `run_id`, `group_id`, `ttl` and `message_type`
are copied from the `TaskIns` and `message_id` is the task id. -/
theorem worker_message_uses_partition_index
    (m : NodeToPartitionMapping) (t : TaskIns) (pid : Nat)
    (h : mappingLookup m t.task.consumer_node_id = some pid) :
    workerMessage m t = some (taskins_to_message t pid) ∧
    (taskins_to_message t pid).metadata.node_id = pid ∧
    (taskins_to_message t pid).metadata.run_id = t.run_id ∧
    (taskins_to_message t pid).metadata.group_id = t.group_id ∧
    (taskins_to_message t pid).metadata.message_id = t.task_id ∧
    (taskins_to_message t pid).metadata.ttl = t.task.ttl ∧
    (taskins_to_message t pid).metadata.message_type = t.task.task_type := by
  refine ⟨?_, rfl, rfl, rfl, rfl, rfl, rfl⟩
  simp [workerMessage, h]

/-- Witness for C7: node 7 is mapped to partition index 0, and the message
built for `taskIns2` carries node_id 0 (the partition index, not 7). -/
theorem worker_message_witness :
    mappingLookup sampleMapping taskIns2.task.consumer_node_id = some 0 ∧
      (workerMessage sampleMapping taskIns2 =
          some (taskins_to_message taskIns2 0) ∧
        (taskins_to_message taskIns2 0).metadata.node_id = 0 ∧
        (taskins_to_message taskIns2 0).metadata.run_id = taskIns2.run_id ∧
        (taskins_to_message taskIns2 0).metadata.group_id = taskIns2.group_id ∧
        (taskins_to_message taskIns2 0).metadata.message_id = taskIns2.task_id ∧
        (taskins_to_message taskIns2 0).metadata.ttl = taskIns2.task.ttl ∧
        (taskins_to_message taskIns2 0).metadata.message_type =
          taskIns2.task.task_type) :=
  ⟨by decide,
    worker_message_uses_partition_index sampleMapping taskIns2 0 (by decide)⟩

namespace DP

/-- Zipping a list with a mapped copy of itself and mapping over the pairs
is a single map. -/
theorem map_zip_map_self {α β γ : Type} (l : List α) (f : α → β)
    (g : α × β → γ) :
    ((l.zip (l.map f)).map g) = l.map (fun a => g (a, f a)) := by
  induction l with
  | nil => rfl
  | cons a t ih => simp [ih]

/-- Clipping preserves the layer count. -/
theorem clip_inputs_length (u : NDArrays) (C : ℝ) :
    (clip_inputs u C).length = u.length := by
  simp [clip_inputs]

/-- When the client's model and its update have the layer count of the
current round parameters, `_update_clients_params` is the layerwise sum of
the current parameters and the update. -/
theorem update_clients_params_eq (current cp cu : NDArrays)
    (h1 : cp.length = current.length) (h2 : cu.length = current.length) :
    update_clients_params current cp cu = List.zipWith tensorAdd current cu := by
  unfold update_clients_params
  rw [List.drop_eq_nil_of_le (le_of_eq h1), List.append_nil]
  apply List.ext_getElem
  · simp [List.length_zipWith, h2]
  · intro i hi₁ hi₂
    have hcur : i < current.length := by simpa using hi₁
    have hcu : i < cu.length := by rw [h2]; exact hcur
    simp only [List.getElem_map, List.getElem_range, List.getElem_zipWith]
    rw [List.getD_eq_getElem current [] hcur, List.getD_eq_getElem cu [] hcu]

/-- The sanitation pipeline of `aggregate_fit` rewrites every entry of
`results` to the same proxy with parameters
`update_clients_params current cp (clip_inputs (cp - current))`. -/
theorem sanitize_results_eq (s : DPWrapperState)
    (results : List (ClientProxy × FitRes)) :
    sanitize_results s results = results.map (fun r =>
      (r.1, { r.2 with parameters := (ndarrays_to_parameters
        (update_clients_params s.current_round_params
          (parameters_to_ndarrays r.2.parameters)
          (clip_inputs (List.zipWith tensorSub
              (parameters_to_ndarrays r.2.parameters)
              s.current_round_params) s.clipping_norm))) })) := by
  unfold sanitize_results compute_model_updates
  simp only [List.map_map, List.zip_map', map_zip_map_self,
    Function.comp_def]

/-- Sums of squares are nonnegative. -/
theorem sumSq_nonneg (u : NDArrays) : 0 ≤ sumSq u := by
  apply List.sum_nonneg
  intro x hx
  simp only [List.mem_map] at hx
  obtain ⟨layer, -, rfl⟩ := hx
  apply List.sum_nonneg
  intro y hy
  simp only [List.mem_map] at hy
  obtain ⟨z, -, rfl⟩ := hy
  positivity

/-- Squared entries of a scaled layer sum to the scaled sum of squares. -/
theorem layer_sumSq_scale (l : List ℝ) (c : ℝ) :
    (l.map (fun x => (x * c) ^ 2)).sum =
      (l.map (fun x => x ^ 2)).sum * c ^ 2 := by
  simp [mul_pow, List.sum_map_mul_right]

/-- Scaling every entry of an update scales its sum of squares by the
square of the factor. -/
theorem sumSq_scale (u : NDArrays) (c : ℝ) :
    sumSq (u.map (fun layer => layer.map (fun x => x * c))) =
      sumSq u * c ^ 2 := by
  simp only [sumSq, List.map_map, Function.comp_def, layer_sumSq_scale,
    List.sum_map_mul_right]

/-- The L2 norm of a clipped update is at most the clipping norm. -/
theorem norm2_clip_le (u : NDArrays) (C : ℝ) (hC : 0 ≤ C) :
    norm2 (clip_inputs u C) ≤ C := by
  have hS : (0:ℝ) ≤ sumSq u := sumSq_nonneg u
  have hsqrt : (0:ℝ) ≤ Real.sqrt (sumSq u) := Real.sqrt_nonneg _
  have hsc : (0:ℝ) ≤ min 1 (C / Real.sqrt (sumSq u)) :=
    le_min zero_le_one (div_nonneg hC hsqrt)
  have heq : norm2 (clip_inputs u C) =
      Real.sqrt (sumSq u) * min 1 (C / Real.sqrt (sumSq u)) := by
    simp only [norm2, clip_inputs, sumSq_scale]
    rw [Real.sqrt_mul hS, Real.sqrt_sq hsc]
  rw [heq]
  rcases eq_or_lt_of_le hsqrt with h0 | hpos
  · rw [← h0, zero_mul]
    exact hC
  · calc Real.sqrt (sumSq u) * min 1 (C / Real.sqrt (sumSq u))
        ≤ Real.sqrt (sumSq u) * (C / Real.sqrt (sumSq u)) :=
          mul_le_mul_of_nonneg_left (min_le_right _ _) hsqrt
      _ = C := by
          rw [mul_comm, div_mul_cancel₀ _ (ne_of_gt hpos)]

/-- With an empty failures list, `aggregate_fit` hands the sanitized
results to the inner strategy. -/
theorem aggregate_fit_snd_empty_failures (s : DPWrapperState)
    (inner : ℕ → List (ClientProxy × FitRes) → List Failure →
      Option Parameters × Metrics)
    (server_round : ℕ) (results : List (ClientProxy × FitRes))
    (noise : NDArrays) :
    (aggregate_fit s inner server_round results [] noise).2 =
      sanitize_results s results := by
  simp [aggregate_fit]

end DP

/-- C1: for every `aggregate_fit` call with an empty failures list (and
well-shaped client models, with the constructor-validated positive
clipping norm), each `FitRes` handed to the inner strategy carries
`current_round_params + clip(Δ)` where `Δ = client − current_round_params`,
and every clipped update satisfies `‖clip(Δ)‖₂ ≤ clipping_norm`. -/
theorem dp_aggregate_fit_clips (s : DP.DPWrapperState)
    (inner : ℕ → List (DP.ClientProxy × DP.FitRes) → List DP.Failure →
      Option DP.Parameters × DP.Metrics)
    (server_round : ℕ) (results : List (DP.ClientProxy × DP.FitRes))
    (noise : DP.NDArrays)
    (hC : 0 < s.clipping_norm)
    (hshape : ∀ r ∈ results,
      DP.ndShape (DP.parameters_to_ndarrays r.2.parameters) =
        DP.ndShape s.current_round_params) :
    (DP.aggregate_fit s inner server_round results [] noise).2 =
      results.map (fun r =>
        (r.1, { r.2 with parameters := (DP.ndarrays_to_parameters
          (List.zipWith DP.tensorAdd s.current_round_params
            (DP.clip_inputs (List.zipWith DP.tensorSub
                (DP.parameters_to_ndarrays r.2.parameters)
                s.current_round_params) s.clipping_norm))) })) ∧
    ∀ r ∈ results,
      DP.norm2 (DP.clip_inputs (List.zipWith DP.tensorSub
          (DP.parameters_to_ndarrays r.2.parameters) s.current_round_params)
        s.clipping_norm) ≤ s.clipping_norm := by
  constructor
  · rw [DP.aggregate_fit_snd_empty_failures, DP.sanitize_results_eq]
    apply List.map_congr_left
    intro r hr
    have hcp : (DP.parameters_to_ndarrays r.2.parameters).length =
        s.current_round_params.length := by
      have h := congrArg List.length (hshape r hr)
      simpa [DP.ndShape] using h
    have hcu : (DP.clip_inputs (List.zipWith DP.tensorSub
        (DP.parameters_to_ndarrays r.2.parameters) s.current_round_params)
        s.clipping_norm).length = s.current_round_params.length := by
      simp [DP.clip_inputs_length, List.length_zipWith, hcp]
    rw [DP.update_clients_params_eq _ _ _ hcp hcu]
  · intro r hr
    exact DP.norm2_clip_le _ _ hC.le

/-- Witness for C1 at one client returning `[[1]]` against current
parameters `[[0]]` with clipping norm `1/2`. -/
theorem dp_aggregate_fit_clips_witness :
    ((0:ℝ) < dpWitnessState.clipping_norm) ∧
    (∀ r ∈ dpWitnessResults,
      DP.ndShape (DP.parameters_to_ndarrays r.2.parameters) =
        DP.ndShape dpWitnessState.current_round_params) ∧
    ((DP.aggregate_fit dpWitnessState dpInnerNone 1 dpWitnessResults []
        [[0]]).2 =
      dpWitnessResults.map (fun r =>
        (r.1, { r.2 with parameters := (DP.ndarrays_to_parameters
          (List.zipWith DP.tensorAdd dpWitnessState.current_round_params
            (DP.clip_inputs (List.zipWith DP.tensorSub
                (DP.parameters_to_ndarrays r.2.parameters)
                dpWitnessState.current_round_params)
              dpWitnessState.clipping_norm))) })) ∧
    ∀ r ∈ dpWitnessResults,
      DP.norm2 (DP.clip_inputs (List.zipWith DP.tensorSub
          (DP.parameters_to_ndarrays r.2.parameters)
          dpWitnessState.current_round_params)
        dpWitnessState.clipping_norm) ≤ dpWitnessState.clipping_norm) := by
  have h1 : (0:ℝ) < dpWitnessState.clipping_norm := by
    show (0:ℝ) < 1/2
    norm_num
  have h2 : ∀ r ∈ dpWitnessResults,
      DP.ndShape (DP.parameters_to_ndarrays r.2.parameters) =
        DP.ndShape dpWitnessState.current_round_params := by
    intro r hr
    simp only [dpWitnessResults, List.mem_singleton] at hr
    subst hr
    simp [DP.ndShape, DP.parameters_to_ndarrays, dpWitnessState]
  exact ⟨h1, h2,
    dp_aggregate_fit_clips dpWitnessState dpInnerNone 1 dpWitnessResults
      [[0]] h1 h2⟩

/-- C4 counterexample: with a non-empty failures list the wrapper does not
delegate — it returns `(None, {})` at once even though the inner strategy
would have yielded parameters `[[5]]` (and `noise_multiplier = 0` means
delegation would have produced them unchanged). -/
theorem dp_failures_short_circuit_counterexample :
    DP.aggregate_fit dpSampleState dpInnerFive 1 [] [0] [[0]] =
      ((none, []), []) ∧
    (dpInnerFive 1 [] [0]).1 = some ⟨[[5]]⟩ :=
  ⟨rfl, rfl⟩

/-- C4 amended: the wrapper delegates to the inner strategy only when the
failures list is empty — with a non-empty failures list it returns
`(None, {})` immediately, leaving `results` untouched and ignoring the
inner strategy — and when delegation happens and the inner aggregation
yields parameters, Gaussian noise with standard deviation
`noise_multiplier · clipping_norm / num_sampled_clients` is added to
them. -/
theorem dp_aggregate_fit_delegation (s : DP.DPWrapperState)
    (inner : ℕ → List (DP.ClientProxy × DP.FitRes) → List DP.Failure →
      Option DP.Parameters × DP.Metrics)
    (server_round : ℕ) (results : List (DP.ClientProxy × DP.FitRes))
    (failures : List DP.Failure) (noise : DP.NDArrays) :
    (failures ≠ [] →
      DP.aggregate_fit s inner server_round results failures noise =
        ((none, []), results)) ∧
    (∀ p m, inner server_round (DP.sanitize_results s results) [] =
        (some p, m) →
      (DP.aggregate_fit s inner server_round results [] noise).1 =
        (some (DP.add_noise_to_params p
          (DP.compute_stdv s.noise_multiplier s.clipping_norm
            s.num_sampled_clients) noise), m)) := by
  constructor
  · intro hf
    cases failures with
    | nil => exact absurd rfl hf
    | cons a t => rfl
  · intro p m h
    simp [DP.aggregate_fit, h]

/-- Witness for C4: with the failure-carrying call the result is
`(None, {})`, and with an empty failures list delegation to `dpInnerFive`
yields its parameters with the (zero-multiplier) noise term added. -/
theorem dp_aggregate_fit_delegation_witness :
    (([0] : List DP.Failure) ≠ [] ∧
      DP.aggregate_fit dpSampleState dpInnerFive 2 [] [0] [[0]] =
        ((none, []), [])) ∧
    (dpInnerFive 2 (DP.sanitize_results dpSampleState []) [] =
        (some ⟨[[5]]⟩, []) ∧
      (DP.aggregate_fit dpSampleState dpInnerFive 2 [] [] [[0]]).1 =
        (some (DP.add_noise_to_params ⟨[[5]]⟩
          (DP.compute_stdv dpSampleState.noise_multiplier
            dpSampleState.clipping_norm dpSampleState.num_sampled_clients)
          [[0]]), [])) :=
  ⟨⟨by decide,
      (dp_aggregate_fit_delegation dpSampleState dpInnerFive 2 [] [0]
        [[0]]).1 (by decide)⟩,
    ⟨rfl,
      (dp_aggregate_fit_delegation dpSampleState dpInnerFive 2 [] []
        [[0]]).2 ⟨[[5]]⟩ [] rfl⟩⟩

/-- C10: `aggregate_fit` with an empty failures list mutates its `results`
argument: after the call every entry's `FitRes.parameters` has been
overwritten with the re-encoded sanitized parameters
(`_update_clients_params` of the current round parameters and the clipped
update), the inner strategy is invoked on exactly that mutated list, and
the round result is the inner result with the noise term applied. -/
theorem dp_aggregate_fit_mutates_results (s : DP.DPWrapperState)
    (inner : ℕ → List (DP.ClientProxy × DP.FitRes) → List DP.Failure →
      Option DP.Parameters × DP.Metrics)
    (server_round : ℕ) (results : List (DP.ClientProxy × DP.FitRes))
    (noise : DP.NDArrays) :
    (DP.aggregate_fit s inner server_round results [] noise).2 =
      results.map (fun r =>
        (r.1, { r.2 with parameters := (DP.ndarrays_to_parameters
          (DP.update_clients_params s.current_round_params
            (DP.parameters_to_ndarrays r.2.parameters)
            (DP.clip_inputs (List.zipWith DP.tensorSub
                (DP.parameters_to_ndarrays r.2.parameters)
                s.current_round_params) s.clipping_norm))) })) ∧
    (DP.aggregate_fit s inner server_round results [] noise).1.2 =
      (inner server_round
        (DP.aggregate_fit s inner server_round results [] noise).2 []).2 ∧
    (DP.aggregate_fit s inner server_round results [] noise).1.1 =
      Option.map (fun p => DP.add_noise_to_params p
          (DP.compute_stdv s.noise_multiplier s.clipping_norm
            s.num_sampled_clients) noise)
        (inner server_round
          (DP.aggregate_fit s inner server_round results [] noise).2 []).1 := by
  refine ⟨?_, ?_, ?_⟩
  · rw [DP.aggregate_fit_snd_empty_failures, DP.sanitize_results_eq]
  · rw [DP.aggregate_fit_snd_empty_failures]
    simp [DP.aggregate_fit]
  · rw [DP.aggregate_fit_snd_empty_failures]
    cases h : (inner server_round (DP.sanitize_results s results) []).1 with
    | none => simp [DP.aggregate_fit, h]
    | some p => simp [DP.aggregate_fit, h]

end Flwr
